import Mathlib

/-!
Verification of the client-side Redis coordination layer from the
"Redis in Action" chapter 4 and chapter 5 note files: the optimistic
WATCH/MULTI/EXEC retry loops of the marketplace (list_item,
purchase_item), the multi-precision time-series counter engine
(update_counter, clean_counters), and the hourly-rotated statistics
aggregator (update_stats, get_stats, log_common).

The Python functions are shallowly embedded: the Redis keyspace fragments
they touch become explicit state records, one body of a WATCH retry loop
becomes a pure state transformer, and the surrounding retry loop becomes a
function over a schedule of iteration fates (WatchError conflict, or an
uninterrupted run).  Python exceptions become an explicit error type;
Python numbers are modelled by Int and by ℚ where true division occurs.
-/

namespace RedisInAction

/-- Python exceptions that the embedded code can raise. -/
inductive PyErr
  | typeError
  | keyError
  | zeroDivisionError
  deriving DecidableEq

/-- The fate of one iteration of a WATCH retry loop: either another client
modified a watched key so that EXEC raised WatchError (the loop then retries
against the store as mutated by that client), or the iteration runs without
interference. -/
inductive Try (σ : Type)
  | conflict (st : σ)
  | clean

/-- Whether a retry-loop iteration fate is a WatchError conflict. -/
def Try.isConflict {σ : Type} : Try σ → Bool
  | Try.conflict _ => true
  | Try.clean => false

/-! ## Chapter 4 marketplace: the keyspace fragment and primitive commands -/

/-- The fragment of the keyspace used by the chapter 4 marketplace code:
hashes (user account records, field `funds`), sets (per-user inventories),
and sorted sets (the market listing).  All scores and field values handled
by this code are integers. -/
structure Store where
  hashes : String → String → Option Int
  sets : String → String → Bool
  zsets : String → String → Option Int

/-- HGET: read one hash field, absent fields give nil. -/
def Store.hget (st : Store) (key field : String) : Option Int :=
  st.hashes key field

/-- HINCRBY: increment a hash field, treating an absent field as 0. -/
def Store.hincrby (st : Store) (key field : String) (n : Int) : Store :=
  { st with hashes := fun k f =>
      if k = key ∧ f = field then some ((st.hashes key field).getD 0 + n)
      else st.hashes k f }

/-- SISMEMBER: set membership test. -/
def Store.sismember (st : Store) (key member : String) : Bool :=
  st.sets key member

/-- SADD: add one member to a set. -/
def Store.sadd (st : Store) (key member : String) : Store :=
  { st with sets := fun k m =>
      if k = key ∧ m = member then true else st.sets k m }

/-- SREM: remove one member from a set. -/
def Store.srem (st : Store) (key member : String) : Store :=
  { st with sets := fun k m =>
      if k = key ∧ m = member then false else st.sets k m }

/-- ZADD: insert a member or overwrite its score. -/
def Store.zadd (st : Store) (key member : String) (score : Int) : Store :=
  { st with zsets := fun k m =>
      if k = key ∧ m = member then some score else st.zsets k m }

/-- ZREM: remove one member from a sorted set. -/
def Store.zrem (st : Store) (key member : String) : Store :=
  { st with zsets := fun k m =>
      if k = key ∧ m = member then none else st.zsets k m }

/-- ZSCORE: score of a member, nil when absent. -/
def Store.zscore (st : Store) (key member : String) : Option Int :=
  st.zsets key member

/-! ## list_item and purchase_item (listings 4-5 and 4-6) -/

/-- One body of the retry loop of list_item, run when the WATCH on the
inventory key survives to EXEC.  The Python body returns None (here
Option.none) after UNWATCH when itemid is not in the inventory, and True
after a successful MULTI of ZADD market + SREM inventory. -/
def list_item_attempt (st : Store) (itemid sellerid : String) (price : Int) :
    Option Bool × Store :=
  let inventory := "inventory:" ++ sellerid
  let item := itemid ++ "." ++ sellerid
  if st.sismember inventory itemid = false then
    (none, st)
  else
    (some true, (st.zadd "market:" item price).srem inventory itemid)

/-- The `while time.time() < end` retry loop of list_item.  The schedule
lists the iterations the 5 second deadline permits; an empty schedule means
the deadline is exhausted and the loop falls through to `return False`. -/
def list_item_run (st : Store) (itemid sellerid : String) (price : Int) :
    List (Try Store) → Option Bool × Store
  | [] => (some false, st)
  | Try.clean :: _ => list_item_attempt st itemid sellerid price
  | Try.conflict st2 :: rest => list_item_run st2 itemid sellerid price rest

/-- One body of the retry loop of purchase_item.  The read phase fetches the
listing price with ZSCORE and the buyer funds with HGET; Python applies
`int(...)` to the HGET result, so a missing account or funds field raises
TypeError (int(None)).  A nil price compares unequal to lprice, so a missing
listing takes the UNWATCH/return-None branch; so does a price mismatch or
insufficient funds.  Otherwise the MULTI applies the two HINCRBY transfers,
the SADD into the buyer inventory and the ZREM of the listing, and the body
returns True. -/
def purchase_item_attempt (st : Store) (buyerid itemid sellerid : String)
    (lprice : Int) : Except PyErr (Option Bool × Store) :=
  let buyer := "users:" ++ buyerid
  let seller := "users:" ++ sellerid
  let item := itemid ++ "." ++ sellerid
  let inventory := "inventory:" ++ buyerid
  let price := st.zscore "market:" item
  match st.hget buyer "funds" with
  | none => Except.error PyErr.typeError
  | some funds =>
    match price with
    | none => Except.ok (none, st)
    | some p =>
      if p ≠ lprice ∨ funds < p then
        Except.ok (none, st)
      else
        Except.ok (some true,
          ((((st.hincrby seller "funds" p).hincrby buyer "funds" (-p)).sadd
              inventory itemid).zrem "market:" item))

/-- The `while time.time() < end` retry loop of purchase_item; an empty
schedule means the 10 second deadline is exhausted and the loop falls
through to `return False`.  A TypeError raised inside a body is not caught
(only WatchError is) and escapes the whole call. -/
def purchase_item_run (st : Store) (buyerid itemid sellerid : String)
    (lprice : Int) : List (Try Store) → Except PyErr (Option Bool × Store)
  | [] => Except.ok (some false, st)
  | Try.clean :: _ => purchase_item_attempt st buyerid itemid sellerid lprice
  | Try.conflict st2 :: rest =>
    purchase_item_run st2 buyerid itemid sellerid lprice rest

/-! ## Chapter 5 counters: update_counter and clean_counters -/

/-- The configured counter precisions, in seconds (listing 5-3). -/
def PRECISION : List Nat := [1, 5, 60, 300, 3600, 18000, 86400]

/-- The number of samples each counter retains (module constant). -/
def SAMPLE_COUNT : ℚ := 100

/-- The two kinds of commands update_counter queues. -/
inductive CounterCmd
  | zadd (key member : String) (score : Int)
  | hincrby (key field : String) (amount : Int)

/-- A buffered redis-py pipeline: the queued commands plus whether EXECUTE
wraps them in MULTI/EXEC.  `conn.pipeline()` with no argument, as used by
update_counter, defaults to transaction=True in redis-py, and the note above
the call says a transactional pipeline is required so that clean_counters
works correctly. -/
structure Pipeline where
  cmds : List CounterCmd
  transactional : Bool

/-- The commands one update_counter(name, count, now) call queues: for each
configured precision, the bucket start `int(now / prec) * prec`, one
registry `ZADD known: <prec:name> 0` and one bucket
`HINCRBY count:<prec:name> <pnow> count`. -/
def update_counter_cmds (name : String) (count : Int) (now : Nat) :
    List CounterCmd :=
  PRECISION.flatMap (fun prec =>
    let pnow := now / prec * prec
    let hash := toString prec ++ ":" ++ name
    [CounterCmd.zadd "known:" hash 0,
     CounterCmd.hincrby ("count:" ++ hash) (toString pnow) count])

/-- The pipeline update_counter builds and executes: one batch holding all
per-precision writes, with the redis-py default transactional wrapping. -/
def update_counter_pipe (name : String) (count : Int) (now : Nat) : Pipeline :=
  { cmds := update_counter_cmds name count now, transactional := true }

/-- The keyspace fragment the counter engine touches: the `known:` registry
sorted set and the `count:<prec:name>` bucket hashes. -/
structure CounterStore where
  zsets : String → String → Option Int
  hashes : String → String → Option Int

/-- Effect of a single queued counter command on the store. -/
def applyCounterCmd (st : CounterStore) : CounterCmd → CounterStore
  | CounterCmd.zadd key member score =>
    { st with zsets := fun k m =>
        if k = key ∧ m = member then some score else st.zsets k m }
  | CounterCmd.hincrby key field amount =>
    { st with hashes := fun k f =>
        if k = key ∧ f = field then
          some ((st.hashes key field).getD 0 + amount)
        else st.hashes k f }

/-- Executing a buffered pipeline: the queued commands are applied to the
store in queue order as one batch. -/
def execPipeline (st : CounterStore) (p : Pipeline) : CounterStore :=
  p.cmds.foldl applyCounterCmd st

/-- Issuing the writes of one update_counter call one at a time instead of
batching them: for each precision in order, first the registry ZADD, then
the bucket HINCRBY, each as its own round trip. -/
def update_counter_direct (st : CounterStore) (name : String) (count : Int)
    (now : Nat) : CounterStore :=
  PRECISION.foldl (fun acc prec =>
    let pnow := now / prec * prec
    let hash := toString prec ++ ":" ++ name
    applyCounterCmd (applyCounterCmd acc (CounterCmd.zadd "known:" hash 0))
      (CounterCmd.hincrby ("count:" ++ hash) (toString pnow) count)) st

/-- Insertion point to the right of x: the number of leading elements that
are at most x.  On the sorted sample list clean_counters builds, this is
exactly what bisect.bisect_right computes. -/
def bisect_right (a : List Int) (x : ℚ) : Nat :=
  (a.takeWhile (fun s : Int => decide ((s : ℚ) ≤ x))).length

/-- The per-counter body of one clean_counters sweep iteration, given the
entries of the `count:<prec:name>` bucket hash, the current time and the
counter precision.  It computes `cutoff = now - SAMPLE_COUNT * prec`, sorts
the integer sample keys, finds `remove = bisect_right(samples, cutoff)` and
HDELs the first `remove` samples (when remove is 0 the HDEL is skipped,
which removes nothing all the same).  Returned are the deleted sample keys
and the remaining bucket entries. -/
def clean_counter_sweep (bucket : List (Int × Int)) (now : ℚ) (prec : Nat) :
    List Int × List (Int × Int) :=
  let cutoff := now - SAMPLE_COUNT * prec
  let samples := List.insertionSort (· ≤ ·) (bucket.map Prod.fst)
  let remove := bisect_right samples cutoff
  let deleted := samples.take remove
  (deleted, bucket.filter (fun e => !(deleted.contains e.1)))

/-- Python int() on the nonnegative elapsed times clean_counters measures:
truncation toward zero. -/
def pyInt (q : ℚ) : Int :=
  if q < 0 then -⌊-q⌋ else ⌊q⌋

/-- `duration = min(int(time.time() - start) + 1, 60)` at the end of one
outer clean_counters pass. -/
def clean_duration (elapsed : ℚ) : Int :=
  min (pyInt elapsed + 1) 60

/-- `time.sleep(max(60 - duration, 1))`: the seconds slept before the next
outer clean_counters pass. -/
def clean_sleep (elapsed : ℚ) : Int :=
  max (60 - clean_duration elapsed) 1

/-! ## Chapter 5 statistics: update_stats, get_stats, log_common -/

/-- The keyspace fragment update_stats touches for one (context, type)
pair: the `stats:<context>:<type>` aggregate sorted set (members min, max,
count, sum, sumsq), its `:last` shadow, and the `:start` / `:pstart` hour
marker strings. -/
structure StatStore where
  agg : String → Option ℚ
  lastAgg : String → Option ℚ
  start : Option String
  pstart : Option String

/-- What one successful update_stats body produces: the store after EXEC,
the last three EXEC results (the new count, sum and sumsq scores returned
by the three ZINCRBY commands, which the Python function returns), and
whether this body queued the two hourly-rotation RENAMEs. -/
structure StatsRet where
  store : StatStore
  count : ℚ
  sum : ℚ
  sumsq : ℚ
  didRename : Bool

/-- One body of the retry loop of update_stats (listing 5-6), run when the
WATCH on the start marker survives to EXEC.  If the stored hour marker is
lexicographically older than the current ISO hour, the aggregate and the
marker are RENAMEd to their :last/:pstart shadows and a fresh marker is
SET; if no marker exists one is SET.  Then the value is merged into min and
max through ZUNIONSTORE with two single-member temporary sets (aggregate
MIN and MAX; the temporaries are deleted in the same MULTI), and count, sum
and sumsq are ZINCRBYed by 1, value and value². -/
def update_stats_attempt (st : StatStore) (hour_start : String) (value : ℚ) :
    StatsRet :=
  let rotated : StatStore × Bool :=
    match st.start with
    | some existing =>
      if existing < hour_start then
        ({ agg := fun _ => none, lastAgg := st.agg,
           start := some hour_start, pstart := some existing }, true)
      else
        (st, false)
    | none => ({ st with start := some hour_start }, false)
  let st1 := rotated.1
  let aggMin : String → Option ℚ := fun m =>
    if m = "min" then
      some (match st1.agg "min" with
            | some x => min x value
            | none => value)
    else st1.agg m
  let aggMax : String → Option ℚ := fun m =>
    if m = "max" then
      some (match aggMin "max" with
            | some x => max x value
            | none => value)
    else aggMin m
  let newCount := (aggMax "count").getD 0 + 1
  let newSum := (aggMax "sum").getD 0 + value
  let newSumsq := (aggMax "sumsq").getD 0 + value * value
  let aggFinal : String → Option ℚ := fun m =>
    if m = "count" then some newCount
    else if m = "sum" then some newSum
    else if m = "sumsq" then some newSumsq
    else aggMax m
  { store := { st1 with agg := aggFinal },
    count := newCount, sum := newSum, sumsq := newSumsq,
    didRename := rotated.2 }

/-- The `while time.time() < end` retry loop of update_stats; an empty
schedule means the deadline is exhausted with every permitted iteration
having hit a WatchError, and the function falls off its end, returning
Python None. -/
def update_stats_run (st : StatStore) (hour_start : String) (value : ℚ) :
    List (Try StatStore) → Option (ℚ × ℚ × ℚ) × StatStore
  | [] => (none, st)
  | Try.clean :: _ =>
    let r := update_stats_attempt st hour_start value
    (some (r.count, r.sum, r.sumsq), r.store)
  | Try.conflict st2 :: rest => update_stats_run st2 hour_start value rest

/-- What get_stats (listing 5-7) computes: the dict built from
ZRANGE ... WITHSCORES, the derived average, and the quantity
`(sumsq - sum**2 / count) / (count - 1 or 1)` whose square root the Python
code stores as stddev (so stddev = sqrt stddevSq). -/
structure GetStatsRet where
  data : String → Option ℚ
  average : ℚ
  stddevSq : ℚ

/-- Python dict lookup `data[k]`: raises KeyError when the key is absent. -/
def dictGet (d : String → Option ℚ) (k : String) : Except PyErr ℚ :=
  match d k with
  | some v => Except.ok v
  | none => Except.error PyErr.keyError

/-- get_stats: builds the dict from the aggregate sorted set and evaluates,
in Python order, `data[sum] / data[count]` (KeyError on an absent member,
ZeroDivisionError when count is 0), then
`numerator = data[sumsq] - data[sum] ** 2 / data[count]`, then divides by
`data[count] - 1 or 1`.  Nothing guards the empty-aggregate case. -/
def get_stats (agg : String → Option ℚ) : Except PyErr GetStatsRet := do
  let s ← dictGet agg "sum"
  let c ← dictGet agg "count"
  if c = 0 then
    Except.error PyErr.zeroDivisionError
  else do
    let average := s / c
    let sq ← dictGet agg "sumsq"
    let numerator := sq - s ^ 2 / c
    let denom := if c - 1 = 0 then (1 : ℚ) else c - 1
    Except.ok { data := agg, average := average, stddevSq := numerator / denom }

/-- The keyspace fragment log_common touches for one (name, severity) pair:
the `common:<name>:<severity>` message-count sorted set, its `:last`
shadow, the `:start` / `:pstart` hour markers, and the recent-log list that
log_recent maintains (LPUSH then LTRIM 0 99). -/
structure LogStore where
  dest : String → Option ℚ
  lastDest : String → Option ℚ
  start : Option String
  pstart : Option String
  recent : List String

/-- The unconditional tail of one log_common body: ZINCRBY the message
count and let log_recent LPUSH the message and LTRIM the list to 100
entries. -/
def log_common_write (st : LogStore) (message : String) : LogStore :=
  { st with
    dest := fun m =>
      if m = message then some ((st.dest message).getD 0 + 1) else st.dest m,
    recent := (message :: st.recent).take 100 }

/-- One body of the retry loop of log_common (listing 5-2), run when the
WATCH on the start marker survives to EXEC.  The hourly rotation branch is
the same as in update_stats; the Bool reports whether this body queued the
two RENAMEs. -/
def log_common_attempt (st : LogStore) (hour_start : String)
    (message : String) : LogStore × Bool :=
  match st.start with
  | some existing =>
    if existing < hour_start then
      (log_common_write
        { dest := fun _ => none, lastDest := st.dest,
          start := some hour_start, pstart := some existing,
          recent := st.recent } message, true)
    else
      (log_common_write st message, false)
  | none =>
    (log_common_write { st with start := some hour_start } message, false)

/-- An initially empty marketplace store except for: sellerA holds item1,
buyerB has 100 funds.  Used to instantiate the scenario theorems. -/
def demoStore : Store :=
  { hashes := fun k f =>
      if k = "users:buyerB" ∧ f = "funds" then some 100 else none,
    sets := fun k m => decide (k = "inventory:sellerA" ∧ m = "item1"),
    zsets := fun _ _ => none }

/-- A marketplace store with no data at all. -/
def emptyStore : Store :=
  { hashes := fun _ _ => none, sets := fun _ _ => false,
    zsets := fun _ _ => none }

/-- A statistics store with no data at all. -/
def emptyStatStore : StatStore :=
  { agg := fun _ => none, lastAgg := fun _ => none,
    start := none, pstart := none }

/-- The ISO hour during which the stats-correctness scenario runs. -/
def statsHour : String := "2026-01-01T00:00:00"

/-- The store after feeding 8, 10, 12, 6, 9 in that order through
update_stats bodies that all run within statsHour, starting from an empty
aggregate. -/
def statsSeqStore : StatStore :=
  (update_stats_attempt (update_stats_attempt (update_stats_attempt
    (update_stats_attempt (update_stats_attempt emptyStatStore
      statsHour 8).store statsHour 10).store statsHour 12).store
    statsHour 6).store statsHour 9).store

/-! ## Helper lemmas -/

/-- Folding a two-command-per-element flatMap equals folding the two
commands element by element. -/
theorem foldl_flatMap_pair (l : List Nat) (f g : Nat → CounterCmd)
    (st : CounterStore) :
    ((l.flatMap (fun p => [f p, g p])).foldl applyCounterCmd st) =
      l.foldl (fun acc p => applyCounterCmd (applyCounterCmd acc (f p)) (g p))
        st := by
  induction l generalizing st with
  | nil => rfl
  | cons a l ih =>
    simp only [List.flatMap_cons, List.foldl_append, List.foldl_cons,
      List.foldl_nil, List.singleton_append]
    exact ih _

/-- Taking as many elements as the takeWhile keeps gives the takeWhile. -/
theorem take_length_takeWhile {α : Type} (p : α → Bool) (l : List α) :
    l.take (l.takeWhile p).length = l.takeWhile p := by
  induction l with
  | nil => rfl
  | cons a l ih =>
    by_cases h : p a
    · simp [List.takeWhile_cons, h, ih]
    · simp [List.takeWhile_cons, h]

/-- On a sorted integer list, the elements kept by takeWhile (· ≤ c) are
exactly the members that are at most c. -/
theorem mem_takeWhile_le_iff (c : ℚ) (l : List Int)
    (hs : List.Sorted (· ≤ ·) l) (x : Int) :
    x ∈ l.takeWhile (fun s : Int => decide ((s : ℚ) ≤ c)) ↔
      x ∈ l ∧ (x : ℚ) ≤ c := by
  induction l with
  | nil => simp
  | cons a l ih =>
    rw [List.sorted_cons] at hs
    by_cases h : (a : ℚ) ≤ c
    · rw [List.takeWhile_cons, if_pos (by simpa using h)]
      simp only [List.mem_cons, ih hs.2]
      constructor
      · rintro (rfl | ⟨hx, hxc⟩)
        · exact ⟨Or.inl rfl, h⟩
        · exact ⟨Or.inr hx, hxc⟩
      · rintro ⟨rfl | hx, hxc⟩
        · exact Or.inl rfl
        · exact Or.inr ⟨hx, hxc⟩
    · rw [List.takeWhile_cons, if_neg (by simpa using h)]
      simp only [List.not_mem_nil, false_iff, not_and, List.mem_cons]
      rintro (rfl | hx)
      · exact h
      · intro hxc
        exact h (le_trans (by exact_mod_cast hs.1 x hx) hxc)

/-- After one update_stats body with current hour h, the stored start
marker is some hour that is not older than h. -/
theorem update_stats_attempt_start (st : StatStore) (h : String) (v : ℚ) :
    ∃ e, (update_stats_attempt st h v).store.start = some e ∧ ¬ e < h := by
  rcases hst : st.start with _ | e
  · exact ⟨h, by simp [update_stats_attempt, hst], lt_irrefl h⟩
  · by_cases hlt : e < h
    · exact ⟨h, by simp [update_stats_attempt, hst, hlt], lt_irrefl h⟩
    · exact ⟨e, by simp [update_stats_attempt, hst, hlt], hlt⟩

/-- An update_stats body that reads a start marker not older than its hour
performs no rotation: no rename is queued and the marker keys and the
archived aggregate stay untouched. -/
theorem update_stats_attempt_stable (st : StatStore) (h e : String) (v : ℚ)
    (hst : st.start = some e) (hlt : ¬ e < h) :
    (update_stats_attempt st h v).didRename = false ∧
    (update_stats_attempt st h v).store.start = st.start ∧
    (update_stats_attempt st h v).store.pstart = st.pstart ∧
    (update_stats_attempt st h v).store.lastAgg = st.lastAgg := by
  simp [update_stats_attempt, hst, hlt]

/-- After one log_common body with current hour h, the stored start marker
is some hour that is not older than h. -/
theorem log_common_attempt_start (st : LogStore) (h m : String) :
    ∃ e, (log_common_attempt st h m).1.start = some e ∧ ¬ e < h := by
  rcases hst : st.start with _ | e
  · exact ⟨h, by simp [log_common_attempt, log_common_write, hst], lt_irrefl h⟩
  · by_cases hlt : e < h
    · exact ⟨h, by simp [log_common_attempt, log_common_write, hst, hlt],
        lt_irrefl h⟩
    · exact ⟨e, by simp [log_common_attempt, log_common_write, hst, hlt], hlt⟩

/-- A log_common body that reads a start marker not older than its hour
queues no rename. -/
theorem log_common_attempt_stable (st : LogStore) (h e m : String)
    (hst : st.start = some e) (hlt : ¬ e < h) :
    (log_common_attempt st h m).2 = false := by
  simp [log_common_attempt, hst, hlt]

/-- One update_stats body whose read of the start marker is not older than
its hour (fresh marker, or a marker equal to the hour): no rotation
happens, the aggregate members evolve by the min/max merge and the three
increments, and the marker ends up at the hour. -/
theorem update_stats_attempt_members (st : StatStore) (h : String) (v : ℚ)
    (hst : st.start = none ∨ st.start = some h) :
    (update_stats_attempt st h v).store.agg "count" =
      some ((st.agg "count").getD 0 + 1) ∧
    (update_stats_attempt st h v).store.agg "sum" =
      some ((st.agg "sum").getD 0 + v) ∧
    (update_stats_attempt st h v).store.agg "sumsq" =
      some ((st.agg "sumsq").getD 0 + v * v) ∧
    (update_stats_attempt st h v).store.agg "min" =
      some (match st.agg "min" with | some x => min x v | none => v) ∧
    (update_stats_attempt st h v).store.agg "max" =
      some (match st.agg "max" with | some x => max x v | none => v) ∧
    (update_stats_attempt st h v).store.start = some h := by
  have hlt : ¬ h < h := lt_irrefl h
  rcases hst with hst | hst <;>
    simp [update_stats_attempt, hst, hlt]

/-! ## The claims -/

/-- Claim C1: the claim asserts that get_stats on an empty aggregate is
guarded and returns a "no data" result.  The code has no such guard: on an
empty aggregate the dict built from ZRANGE is empty and the first lookup
`data[sum]` raises KeyError before any division is reached (and the
division itself would raise ZeroDivisionError were count 0).  This theorem
evaluates the embedded get_stats at the failing input, an aggregate with no
members. -/
theorem C1_get_stats_empty_raises :
    get_stats (fun _ => none) = Except.error PyErr.keyError := rfl

/-- Claim C4 counterexample: the pipeline update_counter builds is created
by `conn.pipeline()`, which in redis-py defaults to transaction=True, i.e.
the batch IS wrapped in MULTI/EXEC — the source comment above the call even
states a transactional pipeline is needed for clean_counters to be correct.
So the claim that the batch carries no transactional wrapping is false at
the concrete call update_counter("hits", 1, 1000). -/
theorem C4_counterexample :
    (update_counter_pipe "hits" 1 1000).transactional = true := rfl

/-- Claim C4 (amended): all per-precision writes of one update_counter call
(one registry ZADD and one bucket HINCRBY per configured precision) are
issued as a single batched transactional pipeline, and executing the batch
is equivalent to issuing each write individually in order. -/
theorem C4_pipeline_batched (st : CounterStore) (name : String) (count : Int)
    (now : Nat) :
    execPipeline st (update_counter_pipe name count now) =
      update_counter_direct st name count now ∧
    (update_counter_pipe name count now).transactional = true ∧
    (update_counter_pipe name count now).cmds.length =
      2 * PRECISION.length := by
  refine ⟨?_, rfl, ?_⟩
  · show (update_counter_cmds name count now).foldl applyCounterCmd st = _
    unfold update_counter_cmds update_counter_direct
    exact foldl_flatMap_pair PRECISION _ _ st
  · simp [update_counter_pipe, update_counter_cmds, PRECISION]

/-- Claim C5: rotation is idempotent within an hour.  For two successive
update_stats bodies (and likewise two log_common bodies) that read the
start marker under the same ISO hour h, the second body queues no rename,
the rename happens at most once across the two, and the second body leaves
the marker keys and archived aggregate untouched — it only merges and
increments. -/
theorem C5_rotation_idempotent (st : StatStore) (h : String) (v1 v2 : ℚ)
    (lst : LogStore) (m1 m2 : String) :
    (update_stats_attempt (update_stats_attempt st h v1).store h
        v2).didRename = false ∧
    ((if (update_stats_attempt st h v1).didRename then (1 : Nat) else 0) +
      (if (update_stats_attempt (update_stats_attempt st h v1).store h
          v2).didRename then 1 else 0) ≤ 1) ∧
    (update_stats_attempt (update_stats_attempt st h v1).store h
        v2).store.start = (update_stats_attempt st h v1).store.start ∧
    (update_stats_attempt (update_stats_attempt st h v1).store h
        v2).store.pstart = (update_stats_attempt st h v1).store.pstart ∧
    (update_stats_attempt (update_stats_attempt st h v1).store h
        v2).store.lastAgg = (update_stats_attempt st h v1).store.lastAgg ∧
    (log_common_attempt (log_common_attempt lst h m1).1 h m2).2 = false := by
  obtain ⟨e, he, hlt⟩ := update_stats_attempt_start st h v1
  obtain ⟨hr, hs, hp, hl⟩ :=
    update_stats_attempt_stable (update_stats_attempt st h v1).store h e v2
      he hlt
  obtain ⟨e2, he2, hlt2⟩ := log_common_attempt_start lst h m1
  refine ⟨hr, ?_, hs, hp, hl,
    log_common_attempt_stable (log_common_attempt lst h m1).1 h e2 m2 he2
      hlt2⟩
  rw [hr]
  split <;> simp

/-- Claim C7 counterexample: the claim says the sleep before the next
clean_counters pass equals max(60 − elapsed, 1).  The code instead sleeps
max(60 − duration, 1) with duration = min(int(elapsed) + 1, 60); at
elapsed = 0 the code sleeps 59 seconds while the claimed formula gives
60. -/
theorem C7_counterexample :
    clean_sleep 0 = 59 ∧ max (60 - (0 : ℚ)) 1 = 60 ∧ (59 : ℚ) ≠ 60 := by
  refine ⟨?_, by norm_num, by norm_num⟩
  norm_num [clean_sleep, clean_duration, pyInt]

/-- Claim C7 (amended): for every outer clean_counters pass taking
elapsed ≥ 0 seconds, the sleep before the next pass equals
max(60 − min(⌊elapsed⌋ + 1, 60), 1); it is therefore 59 − ⌊elapsed⌋ when
⌊elapsed⌋ < 59 and exactly 1 otherwise, always between 1 and 59, so the
loop period stays close to 60 seconds and never spins hot. -/
theorem C7_sleep_amended (elapsed : ℚ) (h : 0 ≤ elapsed) :
    clean_sleep elapsed = max (60 - min (⌊elapsed⌋ + 1) 60) 1 ∧
    1 ≤ clean_sleep elapsed ∧ clean_sleep elapsed ≤ 59 ∧
    (⌊elapsed⌋ < 59 → clean_sleep elapsed = 59 - ⌊elapsed⌋) ∧
    (59 ≤ ⌊elapsed⌋ → clean_sleep elapsed = 1) := by
  have hp : pyInt elapsed = ⌊elapsed⌋ := by
    unfold pyInt
    rw [if_neg (not_lt.mpr h)]
  have hf : (0 : Int) ≤ ⌊elapsed⌋ := Int.floor_nonneg.mpr h
  unfold clean_sleep clean_duration
  rw [hp]
  omega

/-- Witness for C7_sleep_amended at elapsed = 30. -/
theorem C7_witness :
    (0 : ℚ) ≤ 30 ∧
    (clean_sleep 30 = max (60 - min (⌊(30 : ℚ)⌋ + 1) 60) 1 ∧
     1 ≤ clean_sleep 30 ∧ clean_sleep 30 ≤ 59 ∧
     (⌊(30 : ℚ)⌋ < 59 → clean_sleep 30 = 59 - ⌊(30 : ℚ)⌋) ∧
     (59 ≤ ⌊(30 : ℚ)⌋ → clean_sleep 30 = 1)) :=
  ⟨by norm_num, C7_sleep_amended 30 (by norm_num)⟩

/-- Claim C9: when the buyer account hash is missing or has no funds
field, the HGET returns nil and Python applies int() to it, raising an
uncaught TypeError in the read phase (only WatchError is caught), so the
call surfaces the TypeError instead of any of the documented None / True /
False results. -/
theorem C9_purchase_missing_funds (st : Store) (buyerid itemid sellerid :
    String) (lprice : Int) (rest : List (Try Store))
    (h : st.hashes ("users:" ++ buyerid) "funds" = none) :
    purchase_item_run st buyerid itemid sellerid lprice
        (Try.clean :: rest) = Except.error PyErr.typeError ∧
    ∀ v : Option Bool × Store,
      (Except.error PyErr.typeError : Except PyErr (Option Bool × Store)) ≠
        Except.ok v := by
  constructor
  · simp [purchase_item_run, purchase_item_attempt, Store.hget, h]
  · intro v hv
    cases hv

/-- Witness for C9_purchase_missing_funds on the store with no data. -/
theorem C9_witness :
    emptyStore.hashes ("users:" ++ "b") "funds" = none ∧
    (purchase_item_run emptyStore "b" "i" "s" 5 [Try.clean] =
        Except.error PyErr.typeError ∧
     ∀ v : Option Bool × Store,
       (Except.error PyErr.typeError : Except PyErr (Option Bool × Store)) ≠
         Except.ok v) :=
  ⟨rfl, C9_purchase_missing_funds emptyStore "b" "i" "s" 5 [] rfl⟩

/-- Claim C10: when every iteration the deadline permits ends in a
WatchError conflict, the update_stats loop exhausts its schedule and the
function falls off its end, so the caller observes Python None and no
(count, sum, sumsq) triple. -/
theorem C10_update_stats_timeout (st : StatStore) (hour_start : String)
    (value : ℚ) (sched : List (Try StatStore))
    (h : ∀ e ∈ sched, e.isConflict = true) :
    (update_stats_run st hour_start value sched).1 = none := by
  induction sched generalizing st with
  | nil => rfl
  | cons e rest ih =>
    cases e with
    | conflict st2 =>
      exact ih st2 (fun x hx => h x (List.mem_cons_of_mem _ hx))
    | clean =>
      have := h _ (List.mem_cons_self _ _)
      simp [Try.isConflict] at this

/-- Witness for C10_update_stats_timeout on a one-conflict schedule. -/
theorem C10_witness :
    (∀ e ∈ [Try.conflict emptyStatStore], Try.isConflict e = true) ∧
    (update_stats_run emptyStatStore "2026-01-01T00:00:00" 8
        [Try.conflict emptyStatStore]).1 = none := by
  have hc : ∀ e ∈ [Try.conflict emptyStatStore], Try.isConflict e = true := by
    intro e he
    rw [List.mem_singleton] at he
    subst he
    rfl
  exact ⟨hc, C10_update_stats_timeout emptyStatStore "2026-01-01T00:00:00" 8
    [Try.conflict emptyStatStore] hc⟩

/-- Claim C6: for a counter of precision prec processed by a clean_counters
sweep iteration at time now, with cutoff = now − SAMPLE_COUNT · prec, the
sweep deletes from the bucket hash exactly the sample keys that are at most
cutoff, and an entry survives exactly when its bucket start exceeds
cutoff. -/
theorem C6_cleanup_cutoff (bucket : List (Int × Int)) (now : ℚ)
    (prec : Nat) :
    (∀ k : Int, k ∈ (clean_counter_sweep bucket now prec).1 ↔
        k ∈ bucket.map Prod.fst ∧ (k : ℚ) ≤ now - SAMPLE_COUNT * prec) ∧
    (∀ e : Int × Int, e ∈ (clean_counter_sweep bucket now prec).2 ↔
        e ∈ bucket ∧ ¬((e.1 : ℚ) ≤ now - SAMPLE_COUNT * prec)) := by
  have hsort : List.Sorted (· ≤ ·)
      (List.insertionSort (· ≤ ·) (bucket.map Prod.fst)) :=
    List.sorted_insertionSort _ _
  have hdel : (clean_counter_sweep bucket now prec).1 =
      (List.insertionSort (· ≤ ·) (bucket.map Prod.fst)).takeWhile
        (fun s : Int => decide ((s : ℚ) ≤ now - SAMPLE_COUNT * prec)) := by
    simp only [clean_counter_sweep, bisect_right]
    exact take_length_takeWhile _ _
  have hmem : ∀ k : Int, k ∈ (clean_counter_sweep bucket now prec).1 ↔
      k ∈ bucket.map Prod.fst ∧ (k : ℚ) ≤ now - SAMPLE_COUNT * prec := by
    intro k
    rw [hdel, mem_takeWhile_le_iff _ _ hsort, List.mem_insertionSort]
  refine ⟨hmem, fun e => ?_⟩
  have h2 : (clean_counter_sweep bucket now prec).2 =
      bucket.filter
        (fun e => !((clean_counter_sweep bucket now prec).1.contains e.1)) :=
    rfl
  rw [h2, List.mem_filter]
  constructor
  · rintro ⟨hb, hc⟩
    refine ⟨hb, fun hle => ?_⟩
    have hm : e.1 ∈ (clean_counter_sweep bucket now prec).1 :=
      (hmem e.1).mpr ⟨List.mem_map_of_mem _ hb, hle⟩
    rw [Bool.not_eq_true', ← Bool.not_eq_true, List.elem_iff] at hc
    exact hc hm
  · rintro ⟨hb, hle⟩
    refine ⟨hb, ?_⟩
    rw [Bool.not_eq_true', ← Bool.not_eq_true, List.elem_iff]
    intro hm
    exact hle ((hmem e.1).mp hm).2

/-- Claim C8: caller-visible outcomes of list_item and purchase_item.  A
list_item body that finds the item absent returns None, a deadline
exhausted by conflicts returns False, and None and False are distinct
values; a conflicted iteration just reruns the loop on the mutated store,
so no conflict is ever a distinct caller-visible result.  Likewise a
purchase_item body whose read phase sees a missing listing, a price other
than the expected one, or a price above the buyer funds returns None, while
deadline exhaustion returns False. -/
theorem C8_outcomes :
    (∀ (st : Store) (itemid sellerid : String) (price : Int)
        (rest : List (Try Store)),
      st.sets ("inventory:" ++ sellerid) itemid = false →
      (list_item_run st itemid sellerid price (Try.clean :: rest)).1 =
        none) ∧
    (∀ (st : Store) (itemid sellerid : String) (price : Int)
        (sched : List (Try Store)),
      (∀ e ∈ sched, e.isConflict = true) →
      (list_item_run st itemid sellerid price sched).1 = some false) ∧
    ((none : Option Bool) ≠ some false) ∧
    (∀ (st st2 : Store) (itemid sellerid : String) (price : Int)
        (rest : List (Try Store)),
      list_item_run st itemid sellerid price (Try.conflict st2 :: rest) =
        list_item_run st2 itemid sellerid price rest) ∧
    (∀ (st : Store) (buyerid itemid sellerid : String) (lprice funds : Int)
        (rest : List (Try Store)),
      st.hashes ("users:" ++ buyerid) "funds" = some funds →
      (st.zsets "market:" (itemid ++ "." ++ sellerid) = none ∨
        ∃ p, st.zsets "market:" (itemid ++ "." ++ sellerid) = some p ∧
          (p ≠ lprice ∨ funds < p)) →
      purchase_item_run st buyerid itemid sellerid lprice
        (Try.clean :: rest) = Except.ok (none, st)) ∧
    (∀ (st : Store) (buyerid itemid sellerid : String) (lprice : Int)
        (sched : List (Try Store)),
      (∀ e ∈ sched, e.isConflict = true) →
      ∃ stf, purchase_item_run st buyerid itemid sellerid lprice sched =
        Except.ok (some false, stf)) ∧
    (∀ (st st2 : Store) (buyerid itemid sellerid : String) (lprice : Int)
        (rest : List (Try Store)),
      purchase_item_run st buyerid itemid sellerid lprice
          (Try.conflict st2 :: rest) =
        purchase_item_run st2 buyerid itemid sellerid lprice rest) := by
  refine ⟨?_, ?_, by simp, fun _ _ _ _ _ _ => rfl, ?_, ?_,
    fun _ _ _ _ _ _ _ => rfl⟩
  · intro st itemid sellerid price rest h
    simp [list_item_run, list_item_attempt, Store.sismember, h]
  · intro st itemid sellerid price sched h
    induction sched generalizing st with
    | nil => rfl
    | cons e rest ih =>
      cases e with
      | conflict st2 =>
        exact ih st2 (fun x hx => h x (List.mem_cons_of_mem _ hx))
      | clean =>
        have := h _ (List.mem_cons_self _ _)
        simp [Try.isConflict] at this
  · intro st buyerid itemid sellerid lprice funds rest hf hpre
    show purchase_item_attempt st buyerid itemid sellerid lprice = _
    rcases hpre with hnone | ⟨p, hp, hbad⟩
    · simp [purchase_item_attempt, Store.hget, Store.zscore, hf, hnone]
    · have : ¬¬(p ≠ lprice ∨ funds < p) := not_not_intro hbad
      simp [purchase_item_attempt, Store.hget, Store.zscore, hf, hp, hbad]
  · intro st buyerid itemid sellerid lprice sched h
    induction sched generalizing st with
    | nil => exact ⟨st, rfl⟩
    | cons e rest ih =>
      cases e with
      | conflict st2 =>
        exact ih st2 (fun x hx => h x (List.mem_cons_of_mem _ hx))
      | clean =>
        have := h _ (List.mem_cons_self _ _)
        simp [Try.isConflict] at this

/-- Witness for C8_outcomes: on the empty store the not-available outcome
is None and an all-conflict schedule yields the False timeout, two distinct
values. -/
theorem C8_witness :
    (emptyStore.sets ("inventory:" ++ "s") "i" = false ∧
     (list_item_run emptyStore "i" "s" 5 [Try.clean]).1 = none) ∧
    ((∀ e ∈ [Try.conflict emptyStore], Try.isConflict e = true) ∧
     (list_item_run emptyStore "i" "s" 5 [Try.conflict emptyStore]).1 =
       some false) := by
  have hc : ∀ e ∈ [Try.conflict emptyStore], Try.isConflict e = true := by
    intro e he
    rw [List.mem_singleton] at he
    subst he
    rfl
  exact ⟨⟨rfl, C8_outcomes.1 emptyStore "i" "s" 5 [] rfl⟩,
    ⟨hc, C8_outcomes.2.1 emptyStore "i" "s" 5 [Try.conflict emptyStore] hc⟩⟩

/-- Claim C2: starting from a store where sellerA holds item1 and buyerB
has funds bf ≥ 100, a conflict-free list_item("item1","sellerA",100)
returns True and a following conflict-free
purchase_item("buyerB","item1","sellerA",100) returns True, after which the
seller funds grew by exactly 100, the buyer funds shrank by exactly 100,
the buyer inventory contains item1, and the market listing no longer
contains the member item1.sellerA. -/
theorem C2_list_then_purchase (st : Store) (bf : Int)
    (hinv : st.sets "inventory:sellerA" "item1" = true)
    (hfunds : st.hashes "users:buyerB" "funds" = some bf)
    (hge : 100 ≤ bf) :
    ∃ st1 st2 : Store,
      list_item_run st "item1" "sellerA" 100 [Try.clean] =
        (some true, st1) ∧
      purchase_item_run st1 "buyerB" "item1" "sellerA" 100 [Try.clean] =
        Except.ok (some true, st2) ∧
      (st2.hashes "users:sellerA" "funds").getD 0 =
        (st.hashes "users:sellerA" "funds").getD 0 + 100 ∧
      st2.hashes "users:buyerB" "funds" = some (bf - 100) ∧
      st2.sets "inventory:buyerB" "item1" = true ∧
      st2.zsets "market:" "item1.sellerA" = none := by
  have hnotlt : ¬ bf < 100 := not_lt.mpr hge
  refine ⟨(st.zadd "market:" "item1.sellerA" 100).srem "inventory:sellerA"
      "item1",
    (((((st.zadd "market:" "item1.sellerA" 100).srem "inventory:sellerA"
        "item1").hincrby "users:sellerA" "funds" 100).hincrby
        "users:buyerB" "funds" (-100)).sadd "inventory:buyerB"
        "item1").zrem "market:" "item1.sellerA",
    ?_, ?_, ?_, ?_, ?_, ?_⟩
  · simp [list_item_run, list_item_attempt, Store.sismember, hinv]
  · have hh : ((st.zadd "market:" "item1.sellerA" 100).srem
        "inventory:sellerA" "item1").hashes "users:buyerB" "funds" =
        some bf := by
      simp [Store.zadd, Store.srem, hfunds]
    have hz : ((st.zadd "market:" "item1.sellerA" 100).srem
        "inventory:sellerA" "item1").zsets "market:" "item1.sellerA" =
        some 100 := by
      simp [Store.zadd, Store.srem]
    show purchase_item_attempt _ "buyerB" "item1" "sellerA" 100 = _
    simp only [purchase_item_attempt, Store.hget, Store.zscore,
      String.reduceAppend]
    rw [hh, hz]
    simp [hnotlt]
  all_goals
    simp [Store.zadd, Store.srem, Store.hincrby, Store.sadd, Store.zrem,
      Store.hget, hfunds]
  omega

/-- Witness for C2_list_then_purchase on the demo store. -/
theorem C2_witness :
    ∃ st1 st2 : Store,
      list_item_run demoStore "item1" "sellerA" 100 [Try.clean] =
        (some true, st1) ∧
      purchase_item_run st1 "buyerB" "item1" "sellerA" 100 [Try.clean] =
        Except.ok (some true, st2) ∧
      (st2.hashes "users:sellerA" "funds").getD 0 =
        (demoStore.hashes "users:sellerA" "funds").getD 0 + 100 ∧
      st2.hashes "users:buyerB" "funds" = some (100 - 100) ∧
      st2.sets "inventory:buyerB" "item1" = true ∧
      st2.zsets "market:" "item1.sellerA" = none :=
  C2_list_then_purchase demoStore 100 (by decide) (by decide) (by decide)

/-- Claim C3: feeding exactly 8, 10, 12, 6, 9 in that order through
update_stats bodies that all read the same hour, starting from an empty
aggregate, and then calling get_stats yields count 5, sum 45, min 6,
max 12, average 9 and a stddev whose square is 5, i.e.
stddev = sqrt 5 ≈ 2.236 (the final bounds pin sqrt 5 between 2.236 and
2.237). -/
theorem C3_stats_sequence :
    get_stats statsSeqStore.agg =
      Except.ok { data := statsSeqStore.agg, average := 9, stddevSq := 5 } ∧
    statsSeqStore.agg "count" = some 5 ∧
    statsSeqStore.agg "sum" = some 45 ∧
    statsSeqStore.agg "min" = some 6 ∧
    statsSeqStore.agg "max" = some 12 ∧
    ((2236 : ℚ) / 1000) ^ 2 < 5 ∧ (5 : ℚ) < ((2237 : ℚ) / 1000) ^ 2 := by
  have hE : ∀ m, emptyStatStore.agg m = none := fun _ => rfl
  obtain ⟨c1, s1, q1, m1, x1, t1⟩ :=
    update_stats_attempt_members emptyStatStore statsHour 8 (Or.inl rfl)
  simp only [hE] at c1 s1 q1 m1 x1
  norm_num [min_def, max_def] at c1 s1 q1 m1 x1
  obtain ⟨c2, s2, q2, m2, x2, t2⟩ :=
    update_stats_attempt_members _ statsHour 10 (Or.inr t1)
  rw [c1] at c2
  rw [s1] at s2
  rw [q1] at q2
  rw [m1] at m2
  rw [x1] at x2
  norm_num [min_def, max_def] at c2 s2 q2 m2 x2
  obtain ⟨c3, s3, q3, m3, x3, t3⟩ :=
    update_stats_attempt_members _ statsHour 12 (Or.inr t2)
  rw [c2] at c3
  rw [s2] at s3
  rw [q2] at q3
  rw [m2] at m3
  rw [x2] at x3
  norm_num [min_def, max_def] at c3 s3 q3 m3 x3
  obtain ⟨c4, s4, q4, m4, x4, t4⟩ :=
    update_stats_attempt_members _ statsHour 6 (Or.inr t3)
  rw [c3] at c4
  rw [s3] at s4
  rw [q3] at q4
  rw [m3] at m4
  rw [x3] at x4
  norm_num [min_def, max_def] at c4 s4 q4 m4 x4
  obtain ⟨c5, s5, q5, m5, x5, t5⟩ :=
    update_stats_attempt_members _ statsHour 9 (Or.inr t4)
  rw [c4] at c5
  rw [s4] at s5
  rw [q4] at q5
  rw [m4] at m5
  rw [x4] at x5
  norm_num [min_def, max_def] at c5 s5 q5 m5 x5
  unfold statsSeqStore
  refine ⟨?_, c5, s5, m5, x5, by norm_num, by norm_num⟩
  simp only [get_stats, dictGet, c5, s5, q5]
  norm_num [bind, Except.bind]

end RedisInAction
